import Mathlib

/-!
Shallow embedding of `src/MindLockWeb/MindLockInstaApp/app.tsx` (the single
source file of the repository): the host-side WebView message dispatcher
`handleWebViewMessage`, the permission-request effect, the three-way render
branch of `App`, and the injected script's wrapped `goToScreen` function.
-/

namespace MindLock

/-- JavaScript JSON values, as produced by a successful `JSON.parse`. -/
inductive JsonValue where
  | null
  | bool (b : Bool)
  | num (n : Int)
  | str (s : String)
  | arr (elems : List JsonValue)
  | obj (fields : List (String × JsonValue))

/-- Property lookup in a parsed JSON object (first matching key; `JSON.parse`
output has unique keys). `none` models the JavaScript value `undefined`. -/
def lookupField : List (String × JsonValue) → String → Option JsonValue
  | [], _ => none
  | (k, v) :: rest, key => if k = key then some v else lookupField rest key

/-- JavaScript property access `v.key` on a parsed JSON value.
On `null` it throws a TypeError (`Except.error`); on objects it looks the key
up; on every other value (booleans, numbers, strings, arrays) it yields
`undefined` (`Except.ok none`) without throwing. -/
def getField : JsonValue → String → Except Unit (Option JsonValue)
  | JsonValue.null, _ => Except.error ()
  | JsonValue.obj fields, key => Except.ok (lookupField fields key)
  | _, _ => Except.ok none

/-- The host component's mutable state: `hasPermission` is the
`useState<boolean | null>(null)` tri-state (none = Unknown, some true =
Granted, some false = Denied); `showCamera` is the `useState(false)`
camera-overlay visibility flag. -/
structure HostState where
  hasPermission : Option Bool
  showCamera : Bool
deriving DecidableEq

/-- The state at mount: `useState(null)` and `useState(false)`. -/
def initialState : HostState := { hasPermission := none, showCamera := false }

/-- An inbound bridge message: the raw string `event.nativeEvent.data`
together with its `JSON.parse` result (`none` when parsing throws, i.e. the
string is not JSON-parseable). -/
structure Inbound where
  raw : String
  parsed : Option JsonValue

/-- The console.log diagnostics `handleWebViewMessage` can emit, in order. -/
inductive LogEntry where
  | messageFrom (raw : String)
  | showCameraRequested
  | hideCameraRequested
  | buttonClicked (button : Option JsonValue)
  | nonJson (raw : String)

/-- The host-side dispatcher `handleWebViewMessage` of app.tsx.
It logs the raw message, tries `JSON.parse`, then dispatches on
`data.action` with strict string equality; any exception in the try block
(a parse failure, or the TypeError from `data.action` when `data` is
`null`) is caught and logged as a non-JSON diagnostic.  Returns the updated
host state and the list of log entries emitted. -/
def handleWebViewMessage (st : HostState) (m : Inbound) : HostState × List LogEntry :=
  let entry := LogEntry.messageFrom m.raw
  match m.parsed with
  | none => (st, [entry, LogEntry.nonJson m.raw])
  | some data =>
    match getField data "action" with
    | Except.error _ => (st, [entry, LogEntry.nonJson m.raw])
    | Except.ok act =>
      match act with
      | some (JsonValue.str a) =>
        if a = "SHOW_CAMERA" then
          ({ st with showCamera := true }, [entry, LogEntry.showCameraRequested])
        else if a = "HIDE_CAMERA" then
          ({ st with showCamera := false }, [entry, LogEntry.hideCameraRequested])
        else if a = "BUTTON_CLICKED" then
          match getField data "button" with
          | Except.error _ => (st, [entry, LogEntry.nonJson m.raw])
          | Except.ok b => (st, [entry, LogEntry.buttonClicked b])
        else (st, [entry])
      | _ => (st, [entry])

/-- Whether an inbound message parses to a JSON object whose `action` field
is the string `target` (the condition under which the strict comparison
`data.action === target` in the dispatcher succeeds). -/
def hasAction (m : Inbound) (target : String) : Bool :=
  match m.parsed with
  | some data =>
    match getField data "action" with
    | Except.ok (some (JsonValue.str a)) => decide (a = target)
    | _ => false
  | none => false

/-- Outcome of `Camera.requestCameraPermissionsAsync()`: the promise either
resolves with a status string or rejects. -/
inductive RequestOutcome where
  | resolves (status : String)
  | rejects

/-- The mount-time `useEffect` body: on resolution it runs
`setHasPermission(status === 'granted')`; the async block has no catch, so
on rejection no state setter runs and the state is unchanged. -/
def permissionEffect (st : HostState) : RequestOutcome → HostState
  | RequestOutcome.resolves status =>
      { st with hasPermission := some (decide (status = "granted")) }
  | RequestOutcome.rejects => st

/-- State transition of one dispatched inbound message. -/
def stepMessage (st : HostState) (m : Inbound) : HostState :=
  (handleWebViewMessage st m).1

/-- The host states of a session: the permission effect fires once from the
initial state, then each inbound message is dispatched in order.  The list
holds every state from the moment the effect resolved onward. -/
def sessionStates (outcome : RequestOutcome) (msgs : List Inbound) : List HostState :=
  msgs.scanl stepMessage (permissionEffect initialState outcome)

/-- The three-way render branch of `App`: loading view while permission is
Unknown, fixed denial view when Denied, and the WebView (with the camera
overlay mounted iff `showCamera`) when Granted. -/
inductive Screen where
  | loading
  | permissionDenied
  | main (cameraOverlay : Bool)
deriving DecidableEq

/-- The `App` component's render function: early-returns the loading view on
`hasPermission === null`, the denial view on `hasPermission === false`, and
otherwise renders the WebView tree. -/
def render (st : HostState) : Screen :=
  match st.hasPermission with
  | none => Screen.loading
  | some false => Screen.permissionDenied
  | some true => Screen.main st.showCamera

/-- Whether the rendered tree mounts the WebView with its `onMessage`
handler: only the main branch contains the WebView element. -/
def bridgeMounted : Screen → Bool
  | Screen.main _ => true
  | _ => false

/-- Delivery of an inbound message to the host: `onMessage` fires only when
the rendered tree mounts the WebView; otherwise no handler exists and the
message cannot reach the host at all. -/
def deliverMessage (st : HostState) (m : Inbound) : HostState × List LogEntry :=
  if bridgeMounted (render st) then handleWebViewMessage st m else (st, [])

/-! Injected-script half: the wrapped `window.goToScreen`. -/

/-- The message the overridden `console.log` posts for a log call. -/
def consoleLogPost (msg : String) : JsonValue :=
  JsonValue.obj [("type", JsonValue.str "CONSOLE_LOG"), ("message", JsonValue.str msg)]

/-- The `BUTTON_CLICKED` message posted by the wrapped `goToScreen`. -/
def buttonClickedPost (n : Int) : JsonValue :=
  JsonValue.obj [("action", JsonValue.str "BUTTON_CLICKED"),
                 ("button", JsonValue.str ("screen_" ++ toString n))]

/-- The `SHOW_CAMERA` message posted when navigating to screen 5. -/
def showCameraPost : JsonValue :=
  JsonValue.obj [("action", JsonValue.str "SHOW_CAMERA")]

/-- The `HIDE_CAMERA` message posted when navigating to any other screen. -/
def hideCameraPost : JsonValue :=
  JsonValue.obj [("action", JsonValue.str "HIDE_CAMERA")]

/-- Observable events of one `goToScreen` invocation inside the page:
posting a message through `window.ReactNativeWebView.postMessage`, or
calling the saved original navigation function. -/
inductive PageEvent where
  | post (v : JsonValue)
  | callOriginal (n : Int)

/-- The wrapped `window.goToScreen` of the injected script, as the ordered
list of events one invocation produces.  `originalDefined` records whether
`window.goToScreen` was a function before wrapping (the saved
`originalGoToScreen`): the final delegation runs only under the
`typeof originalGoToScreen === 'function'` guard, so an undefined original
is skipped without throwing.  The leading `console.log('Going to screen:', n)`
itself posts a `CONSOLE_LOG` message because the script overrides
`console.log` first. -/
def goToScreen (originalDefined : Bool) (n : Int) : List PageEvent :=
  [PageEvent.post (consoleLogPost ("Going to screen: " ++ toString n)),
   PageEvent.post (buttonClickedPost n)]
  ++ (if n = 5 then [PageEvent.post showCameraPost] else [PageEvent.post hideCameraPost])
  ++ (if originalDefined then [PageEvent.callOriginal n] else [])

/-- Whether a parsed JSON value is the JSON null value (the one value on
which the dispatcher's property access `data.action` throws). -/
def isNullValue : JsonValue → Bool
  | JsonValue.null => true
  | _ => false

/-- A concrete `SHOW_CAMERA` inbound message, the raw string paired with its
parse result; the parsed value is exactly the payload the injected script
posts when navigating to screen 5. -/
def showInbound : Inbound :=
  { raw := "\x7b\"action\":\"SHOW_CAMERA\"\x7d", parsed := some showCameraPost }

/-- A concrete `HIDE_CAMERA` inbound message. -/
def hideInbound : Inbound :=
  { raw := "\x7b\"action\":\"HIDE_CAMERA\"\x7d", parsed := some hideCameraPost }

/-- A concrete `BUTTON_CLICKED` inbound message with the given button. -/
def buttonInbound (b : String) : Inbound :=
  { raw := "\x7b\"action\":\"BUTTON_CLICKED\",\"button\":\"" ++ b ++ "\"\x7d",
    parsed := some (JsonValue.obj
      [("action", JsonValue.str "BUTTON_CLICKED"), ("button", JsonValue.str b)]) }

/-- The literal string null: JSON-parseable, parsing to the JSON null
value. -/
def nullInbound : Inbound := { raw := "null", parsed := some JsonValue.null }

/-- A concrete `CONSOLE_LOG` diagnostic message, as posted by the injected
script's overridden `console.log`; it carries no `action` field. -/
def consoleLogInbound : Inbound :=
  { raw := "\x7b\"type\":\"CONSOLE_LOG\",\"message\":\"hi\"\x7d",
    parsed := some (consoleLogPost "hi") }

/-! Helper lemmas shared by the claim theorems. -/

/-- The dispatcher never writes `hasPermission`. -/
lemma handle_hasPermission (st : HostState) (m : Inbound) :
    (handleWebViewMessage st m).1.hasPermission = st.hasPermission := by
  rcases m with ⟨raw, parsed⟩
  cases parsed with
  | none => rfl
  | some data =>
    cases data with
    | null => rfl
    | bool b => rfl
    | num n => rfl
    | str s => rfl
    | arr es => rfl
    | obj fields =>
      cases hv : lookupField fields "action" with
      | none => simp [handleWebViewMessage, getField, hv]
      | some v =>
        cases v with
        | null => simp [handleWebViewMessage, getField, hv]
        | bool b => simp [handleWebViewMessage, getField, hv]
        | num n => simp [handleWebViewMessage, getField, hv]
        | arr es => simp [handleWebViewMessage, getField, hv]
        | obj fs => simp [handleWebViewMessage, getField, hv]
        | str a =>
          by_cases hs : a = "SHOW_CAMERA"
          · simp [handleWebViewMessage, getField, hv, hs]
          · by_cases hh : a = "HIDE_CAMERA"
            · simp [handleWebViewMessage, getField, hv, hs, hh]
            · by_cases hb : a = "BUTTON_CLICKED"
              · simp [handleWebViewMessage, getField, hv, hs, hh, hb]
              · simp [handleWebViewMessage, getField, hv, hs, hh, hb]

/-- Characterisation of the dispatcher's effect on `showCamera`. -/
lemma handle_showCamera (st : HostState) (m : Inbound) :
    (handleWebViewMessage st m).1.showCamera =
      (if hasAction m "SHOW_CAMERA" then true
       else if hasAction m "HIDE_CAMERA" then false
       else st.showCamera) := by
  rcases m with ⟨raw, parsed⟩
  cases parsed with
  | none => rfl
  | some data =>
    cases data with
    | null => rfl
    | bool b => rfl
    | num n => rfl
    | str s => rfl
    | arr es => rfl
    | obj fields =>
      cases hv : lookupField fields "action" with
      | none => simp [handleWebViewMessage, hasAction, getField, hv]
      | some v =>
        cases v with
        | null => simp [handleWebViewMessage, hasAction, getField, hv]
        | bool b => simp [handleWebViewMessage, hasAction, getField, hv]
        | num n => simp [handleWebViewMessage, hasAction, getField, hv]
        | arr es => simp [handleWebViewMessage, hasAction, getField, hv]
        | obj fs => simp [handleWebViewMessage, hasAction, getField, hv]
        | str a =>
          by_cases hs : a = "SHOW_CAMERA"
          · simp [handleWebViewMessage, hasAction, getField, hv, hs]
          · by_cases hh : a = "HIDE_CAMERA"
            · simp [handleWebViewMessage, hasAction, getField, hv, hs, hh]
            · by_cases hb : a = "BUTTON_CLICKED"
              · simp [handleWebViewMessage, hasAction, getField, hv, hs, hh, hb]
              · simp [handleWebViewMessage, hasAction, getField, hv, hs, hh, hb]

/-- A message carrying action `target` parses to an object whose `action`
field is the string `target`. -/
lemma hasAction_elim (m : Inbound) (target : String)
    (h : hasAction m target = true) :
    ∃ fields, m.parsed = some (JsonValue.obj fields) ∧
      lookupField fields "action" = some (JsonValue.str target) := by
  rcases m with ⟨raw, parsed⟩
  cases parsed with
  | none => simp [hasAction] at h
  | some data =>
    cases data with
    | obj fields =>
      cases hv : lookupField fields "action" with
      | none => simp [hasAction, getField, hv] at h
      | some v =>
        cases v with
        | str a =>
          simp [hasAction, getField, hv] at h
          exact ⟨fields, rfl, by rw [← h]; exact hv⟩
        | null => simp [hasAction, getField, hv] at h
        | bool b => simp [hasAction, getField, hv] at h
        | num n => simp [hasAction, getField, hv] at h
        | arr es => simp [hasAction, getField, hv] at h
        | obj fs => simp [hasAction, getField, hv] at h
    | null => simp [hasAction, getField] at h
    | bool b => simp [hasAction, getField] at h
    | num n => simp [hasAction, getField] at h
    | str s => simp [hasAction, getField] at h
    | arr es => simp [hasAction, getField] at h

/-- Dispatching a `SHOW_CAMERA` message sets `showCamera` and changes
nothing else. -/
lemma handle_show (st : HostState) (m : Inbound)
    (h : hasAction m "SHOW_CAMERA" = true) :
    (handleWebViewMessage st m).1 = { st with showCamera := true } := by
  obtain ⟨fields, hp, ha⟩ := hasAction_elim m "SHOW_CAMERA" h
  rcases m with ⟨raw, parsed⟩
  simp only at hp
  subst hp
  simp [handleWebViewMessage, getField, ha]

/-- Dispatching a `HIDE_CAMERA` message clears `showCamera` and changes
nothing else. -/
lemma handle_hide (st : HostState) (m : Inbound)
    (h : hasAction m "HIDE_CAMERA" = true) :
    (handleWebViewMessage st m).1 = { st with showCamera := false } := by
  obtain ⟨fields, hp, ha⟩ := hasAction_elim m "HIDE_CAMERA" h
  rcases m with ⟨raw, parsed⟩
  simp only at hp
  subst hp
  simp [handleWebViewMessage, getField, ha]

/-- Dispatching a `BUTTON_CLICKED` message leaves the state unchanged and
logs the `button` field. -/
lemma handle_button (st : HostState) (m : Inbound)
    (h : hasAction m "BUTTON_CLICKED" = true) :
    ∃ fields, m.parsed = some (JsonValue.obj fields) ∧
      handleWebViewMessage st m =
        (st, [LogEntry.messageFrom m.raw,
              LogEntry.buttonClicked (lookupField fields "button")]) := by
  obtain ⟨fields, hp, ha⟩ := hasAction_elim m "BUTTON_CLICKED" h
  refine ⟨fields, hp, ?_⟩
  rcases m with ⟨raw, parsed⟩
  simp only at hp
  subst hp
  simp [handleWebViewMessage, getField, ha]

/-- Every state in a message-processing run carries the permission value of
the state the run started from. -/
lemma scanl_hasPermission (s : HostState) (msgs : List Inbound) (st : HostState)
    (h : st ∈ msgs.scanl stepMessage s) : st.hasPermission = s.hasPermission := by
  induction msgs generalizing s with
  | nil =>
    simp [List.scanl] at h
    rw [h]
  | cons m ms ih =>
    simp only [List.scanl, List.mem_cons] at h
    cases h with
    | inl h => rw [h]
    | inr h =>
      rw [ih (stepMessage s m) h]
      exact handle_hasPermission s m

/-! Claim theorems. -/

/-- C1: CameraVisible (`showCamera`) starts false; a dispatched message sets
it to true exactly when its action is `SHOW_CAMERA`, to false exactly when
its action is `HIDE_CAMERA`, and otherwise leaves it unchanged; the only
other writer of host state, the permission effect, never touches it. -/
theorem camera_visible_only_show_hide (st : HostState) (m : Inbound)
    (o : RequestOutcome) :
    initialState.showCamera = false ∧
    (handleWebViewMessage st m).1.showCamera =
      (if hasAction m "SHOW_CAMERA" then true
       else if hasAction m "HIDE_CAMERA" then false
       else st.showCamera) ∧
    (permissionEffect st o).showCamera = st.showCamera := by
  refine ⟨rfl, handle_showCamera st m, ?_⟩
  cases o <;> rfl

/-- C2 counterexample: dispatching `BUTTON_CLICKED` with button screen_5
from the initial state leaves `showCamera` false, though the claim says it
must become true; dispatching button screen_2 from a state with the camera
showing leaves it true, though the claim says it must become false. -/
theorem button_clicked_counterexample :
    (handleWebViewMessage initialState (buttonInbound "screen_5")).1.showCamera = false ∧
    (handleWebViewMessage { hasPermission := some true, showCamera := true }
        (buttonInbound "screen_2")).1.showCamera = true := by
  exact ⟨by decide, by decide⟩

/-- C2 amended: a `BUTTON_CLICKED` message, whatever its button value,
leaves the whole host state (CameraVisible included) unchanged; its branch
only logs the button.  Camera visibility is driven solely by the separate
`SHOW_CAMERA` / `HIDE_CAMERA` messages the injected script posts alongside
the button notification. -/
theorem button_clicked_leaves_state (st : HostState) (m : Inbound)
    (h : hasAction m "BUTTON_CLICKED" = true) :
    (handleWebViewMessage st m).1 = st := by
  obtain ⟨fields, hp, he⟩ := handle_button st m h
  rw [he]

/-- C2 witness: the amended theorem applied to the concrete screen_5
message. -/
theorem button_clicked_leaves_state_witness :
    (handleWebViewMessage initialState (buttonInbound "screen_5")).1 = initialState :=
  button_clicked_leaves_state initialState (buttonInbound "screen_5") (by decide)

/-- C3 counterexample: when the permission request rejects, the effect body
never reaches its state setter (there is no catch), so `hasPermission`
remains Unknown (none) — it does not resolve to Denied. -/
theorem permission_rejection_counterexample :
    (permissionEffect initialState RequestOutcome.rejects).hasPermission = none := rfl

/-- C3 amended: a resolving permission request always produces a non-Unknown
state, Granted exactly when the status string is granted; a rejecting
request is unhandled, leaves the state exactly as it was (Unknown at mount),
and the loading view keeps rendering. -/
theorem permission_effect_resolution (st : HostState) (status : String) :
    (permissionEffect st (RequestOutcome.resolves status)).hasPermission
        = some (decide (status = "granted")) ∧
    permissionEffect st RequestOutcome.rejects = st ∧
    render (permissionEffect initialState RequestOutcome.rejects) = Screen.loading :=
  ⟨rfl, rfl, rfl⟩

/-- C4: a non-JSON-parseable inbound message is handled totally (the parse
exception is caught): the dispatcher logs the arrival and the raw string as
a non-JSON diagnostic, and returns the whole host state unchanged. -/
theorem non_json_message_noop (st : HostState) (raw : String) :
    handleWebViewMessage st { raw := raw, parsed := none } =
      (st, [LogEntry.messageFrom raw, LogEntry.nonJson raw]) := rfl

/-- C5: one invocation of the wrapped `goToScreen` posts the
`BUTTON_CLICKED` message for screen n, posts `SHOW_CAMERA` exactly when
n = 5 and `HIDE_CAMERA` exactly when n is any other index, and delegates to
the original navigation function exactly when it was defined; with the
original undefined, the event list is the same minus the trailing delegation
call, so the wrapper still posts all its messages and throws nothing. -/
theorem go_to_screen_events (n : Int) (d : Bool) :
    PageEvent.post (buttonClickedPost n) ∈ goToScreen d n ∧
    (PageEvent.post showCameraPost ∈ goToScreen d n ↔ n = 5) ∧
    (PageEvent.post hideCameraPost ∈ goToScreen d n ↔ n ≠ 5) ∧
    (PageEvent.callOriginal n ∈ goToScreen d n ↔ d = true) ∧
    goToScreen false n = (goToScreen true n).dropLast := by
  by_cases h5 : n = 5 <;>
    cases d <;>
      simp [goToScreen, buttonClickedPost, showCameraPost, hideCameraPost,
        consoleLogPost, h5]

/-- C6: whenever permission is Denied the app renders the fixed denial view
and the WebView — the only element carrying the `onMessage` bridge — is not
mounted, so a posted message reaches no handler and leaves the state
untouched; whenever permission is Unknown the loading view renders.  The
statement quantifies over the rest of the state through `c`. -/
theorem denied_renders_denial_no_bridge (c : Bool) (m : Inbound) :
    render { hasPermission := some false, showCamera := c } = Screen.permissionDenied ∧
    bridgeMounted (render { hasPermission := some false, showCamera := c }) = false ∧
    deliverMessage { hasPermission := some false, showCamera := c } m
      = ({ hasPermission := some false, showCamera := c }, []) ∧
    render { hasPermission := none, showCamera := c } = Screen.loading :=
  ⟨rfl, rfl, rfl, rfl⟩

/-- C7: `hasPermission` starts Unknown (none); the mount effect's single
resolution is its only writer, so every state of a session — the permission
step followed by any sequence of dispatched messages — carries exactly the
value that resolution produced: the state transitions at most once, from
Unknown to Granted or Denied (`some` of the status check), and never changes
again within the session (in particular never Granted to Denied, nor back to
Unknown). -/
theorem permission_single_transition (outcome : RequestOutcome)
    (msgs : List Inbound) (st : HostState)
    (h : st ∈ sessionStates outcome msgs) :
    initialState.hasPermission = none ∧
    st.hasPermission = (permissionEffect initialState outcome).hasPermission :=
  ⟨rfl, scanl_hasPermission (permissionEffect initialState outcome) msgs st h⟩

/-- C7 witness: the state after the permission step and one dispatched
message still carries the granted permission value. -/
theorem permission_single_transition_witness :
    initialState.hasPermission = none ∧
    (stepMessage (permissionEffect initialState (RequestOutcome.resolves "granted"))
        showInbound).hasPermission
      = (permissionEffect initialState (RequestOutcome.resolves "granted")).hasPermission :=
  permission_single_transition (RequestOutcome.resolves "granted") [showInbound]
    (stepMessage (permissionEffect initialState (RequestOutcome.resolves "granted"))
      showInbound)
    (by simp [sessionStates, List.scanl])

/-- C8 counterexample: the literal string null is JSON-parseable (it parses
to the JSON null value) and has no action field, yet the dispatcher does not
silently ignore it: the property access `data.action` throws, the catch
runs, and the raw string is logged through the non-JSON diagnostic path. -/
theorem null_message_counterexample :
    nullInbound.parsed ≠ none ∧
    (handleWebViewMessage initialState nullInbound).2 =
      [LogEntry.messageFrom "null", LogEntry.nonJson "null"] :=
  ⟨by simp [nullInbound], rfl⟩

/-- C8 amended: every JSON-parseable message whose action is none of
`SHOW_CAMERA`, `HIDE_CAMERA`, `BUTTON_CLICKED` leaves the host state
unchanged and raises no unhandled failure; it is silently ignored (only the
unconditional arrival log is emitted) whenever the parsed value is not JSON
null, while a message parsing to JSON null is instead logged through the
non-JSON diagnostic path, because the action property access throws and the
catch block treats it like a parse failure. -/
theorem unrecognized_action_ignored (st : HostState) (m : Inbound)
    (data : JsonValue) (hp : m.parsed = some data)
    (hs : hasAction m "SHOW_CAMERA" = false)
    (hh : hasAction m "HIDE_CAMERA" = false)
    (hb : hasAction m "BUTTON_CLICKED" = false) :
    (handleWebViewMessage st m).1 = st ∧
    (handleWebViewMessage st m).2 =
      (if isNullValue data
       then [LogEntry.messageFrom m.raw, LogEntry.nonJson m.raw]
       else [LogEntry.messageFrom m.raw]) := by
  rcases m with ⟨raw, parsed⟩
  simp only at hp
  subst hp
  cases data with
  | null => exact ⟨rfl, rfl⟩
  | bool b => exact ⟨rfl, rfl⟩
  | num k => exact ⟨rfl, rfl⟩
  | str s => exact ⟨rfl, rfl⟩
  | arr es => exact ⟨rfl, rfl⟩
  | obj fields =>
    cases hv : lookupField fields "action" with
    | none => simp [handleWebViewMessage, getField, isNullValue, hv]
    | some v =>
      cases v with
      | str a =>
        simp [hasAction, getField, hv] at hs hh hb
        simp [handleWebViewMessage, getField, isNullValue, hv, hs, hh, hb]
      | null => simp [handleWebViewMessage, getField, isNullValue, hv]
      | bool b => simp [handleWebViewMessage, getField, isNullValue, hv]
      | num k => simp [handleWebViewMessage, getField, isNullValue, hv]
      | arr es => simp [handleWebViewMessage, getField, isNullValue, hv]
      | obj fs => simp [handleWebViewMessage, getField, isNullValue, hv]

/-- C8 witness: the amended theorem applied to a concrete `CONSOLE_LOG`
message, whose action field is absent. -/
theorem unrecognized_action_ignored_witness :
    (handleWebViewMessage initialState consoleLogInbound).1 = initialState ∧
    (handleWebViewMessage initialState consoleLogInbound).2 =
      (if isNullValue (consoleLogPost "hi")
       then [LogEntry.messageFrom consoleLogInbound.raw,
             LogEntry.nonJson consoleLogInbound.raw]
       else [LogEntry.messageFrom consoleLogInbound.raw]) :=
  unrecognized_action_ignored initialState consoleLogInbound (consoleLogPost "hi")
    rfl (by decide) (by decide) (by decide)

/-- C9: message dispatch is framed on `showCamera`: it never writes
`hasPermission`, and the post state agrees with the pre state everywhere
except possibly the `showCamera` field. -/
theorem dispatch_preserves_permission (st : HostState) (m : Inbound) :
    (handleWebViewMessage st m).1.hasPermission = st.hasPermission ∧
    (handleWebViewMessage st m).1 =
      { st with showCamera := (handleWebViewMessage st m).1.showCamera } := by
  refine ⟨handle_hasPermission st m, ?_⟩
  have h := handle_hasPermission st m
  rcases hst : (handleWebViewMessage st m).1 with ⟨p, c⟩
  rw [hst] at h
  simp only at h
  simp [h]

/-- C10: `SHOW_CAMERA` and `HIDE_CAMERA` dispatch is idempotent and history
independent: dispatching the same message twice yields the same state as
dispatching it once, the resulting visibility does not depend on the prior
state, and it equals true exactly for `SHOW_CAMERA` (hence false for
`HIDE_CAMERA`). -/
theorem show_hide_idempotent (st st' : HostState) (m : Inbound)
    (h : hasAction m "SHOW_CAMERA" = true ∨ hasAction m "HIDE_CAMERA" = true) :
    stepMessage (stepMessage st m) m = stepMessage st m ∧
    (stepMessage st m).showCamera = (stepMessage st' m).showCamera ∧
    (stepMessage st m).showCamera = hasAction m "SHOW_CAMERA" := by
  cases h with
  | inl hS =>
    have e : ∀ s : HostState, stepMessage s m = { s with showCamera := true } :=
      fun s => handle_show s m hS
    simp [e, hS]
  | inr hH =>
    have e : ∀ s : HostState, stepMessage s m = { s with showCamera := false } :=
      fun s => handle_hide s m hH
    obtain ⟨fields, hp, ha⟩ := hasAction_elim m "HIDE_CAMERA" hH
    have hS : hasAction m "SHOW_CAMERA" = false := by
      rcases m with ⟨raw, parsed⟩
      simp only at hp
      subst hp
      simp [hasAction, getField, ha]
    simp [e, hS]

/-- C10 witness: the theorem applied to the concrete `SHOW_CAMERA`
message. -/
theorem show_hide_idempotent_witness :
    stepMessage (stepMessage initialState showInbound) showInbound
      = stepMessage initialState showInbound ∧
    (stepMessage initialState showInbound).showCamera
      = (stepMessage { hasPermission := some true, showCamera := true }
          showInbound).showCamera ∧
    (stepMessage initialState showInbound).showCamera
      = hasAction showInbound "SHOW_CAMERA" :=
  show_hide_idempotent initialState { hasPermission := some true, showCamera := true }
    showInbound (Or.inl (by decide))

end MindLock
